import Mathlib

/-!
Shallow embedding of the PNG encoder in `src/ricklib/pngenerator.py`.

Bytes are modelled as natural numbers below 256; byte strings as `List Nat`.
Python's `int.to_bytes(n, 'big')` (which raises `OverflowError` on negative
values or values that do not fit) is modelled with `Option`.  The zlib
compressor is an external library; encoder functions are parametrized over a
`compress : Nat → List Nat → List Nat` function (level, data) and, where a
claim requires it, over a matching decompressor with the zlib round-trip
contract as a hypothesis.  `zlib.crc32` is modelled concretely by the
standard reflected CRC-32 algorithm (polynomial 0xEDB88320).
-/

set_option maxRecDepth 2000

namespace Ricklib

instance {ε α : Type} [DecidableEq ε] [DecidableEq α] : DecidableEq (Except ε α) := fun x y =>
  match x, y with
  | .ok a, .ok b =>
    decidable_of_iff (a = b) ⟨fun h => by rw [h], fun h => Except.ok.inj h⟩
  | .error a, .error b =>
    decidable_of_iff (a = b) ⟨fun h => by rw [h], fun h => Except.error.inj h⟩
  | .ok _, .error _ => isFalse (fun h => Except.noConfusion h)
  | .error _, .ok _ => isFalse (fun h => Except.noConfusion h)

/-- Big-endian base-256 digits of `v`, exactly `n` bytes (truncating high
bits, as a total helper; overflow detection is in `intToBytes?`). -/
def natToBytesBE : Nat → Nat → List Nat
  | 0, _ => []
  | n + 1, v => natToBytesBE n (v / 256) ++ [v % 256]

/-- Model of Python `v.to_bytes(n, 'big')`: `none` exactly when Python would
raise `OverflowError` (negative value, or value not representable in `n`
bytes). -/
def intToBytes? (n : Nat) (v : Int) : Option (List Nat) :=
  match v with
  | .ofNat m => if m < 256 ^ n then some (natToBytesBE n m) else none
  | .negSucc _ => none

/-- Model of Python `int.from_bytes(l, 'big')`, used to state CRC recomputation. -/
def fromBytesBE (l : List Nat) : Nat :=
  l.foldl (fun a b => a * 256 + b) 0

/-- One bit-step of the reflected CRC-32 algorithm (polynomial 0xEDB88320). -/
def crcStep (r : Nat) : Nat :=
  if r % 2 = 1 then (r / 2) ^^^ 0xEDB88320 else r / 2

/-- Eight CRC bit-steps: processing of one byte after the xor-in. -/
def crcByte (r : Nat) : Nat :=
  crcStep (crcStep (crcStep (crcStep (crcStep (crcStep (crcStep (crcStep r)))))))

/-- Model of `zlib.crc32(data)`: standard CRC-32 of a byte string. -/
def crc32 (data : List Nat) : Nat :=
  (data.foldl (fun c b => crcByte (c ^^^ b)) 0xFFFFFFFF) ^^^ 0xFFFFFFFF

/-- Model of `_pngEncoder._crc32`: `zlib.crc32(data) & 0xffffffff`. -/
def crc32Masked (data : List Nat) : Nat :=
  crc32 data &&& 0xffffffff

/-- The fixed 8-byte PNG signature written by `_pngEncoder._signature`. -/
def pngSignature : List Nat := [0x89, 0x50, 0x4E, 0x47, 0x0D, 0x0A, 0x1A, 0x0A]

/-- The bytes of `'IHDR'.encode()`. -/
def ihdrType : List Nat := [0x49, 0x48, 0x44, 0x52]

/-- The bytes of `'IDAT'.encode()`. -/
def idatType : List Nat := [0x49, 0x44, 0x41, 0x54]

/-- The bytes of `'IEND'.encode()`. -/
def iendType : List Nat := [0x49, 0x45, 0x4E, 0x44]

/-- Model of `_pngEncoder._write_chunk`: length (4 bytes BE), type code,
payload, CRC-32 over type‖payload (4 bytes BE).  `none` when the length
conversion overflows (payload of 2^32 bytes or more), in which case nothing
is written. -/
def writeChunk (chunkType payload : List Nat) : Option (List Nat) := do
  let lenB ← intToBytes? 4 (payload.length : Int)
  let crcB ← intToBytes? 4 (crc32Masked (chunkType ++ payload) : Int)
  return lenB ++ chunkType ++ payload ++ crcB

/-- The byte string `_write_chunk` produces in the non-overflow case. -/
def chunkBytes (chunkType payload : List Nat) : List Nat :=
  natToBytesBE 4 payload.length ++ chunkType ++ payload
    ++ natToBytesBE 4 (crc32Masked (chunkType ++ payload))

/-- State of `_pngEncoder` after a successful `__init__`: the fields the
constructor assigns (the pixel type `π` is `Int` for `Grayscale` and
`Int × Int × Int` for `RGB`). `compression` holds the zlib level
(`Z_BEST_COMPRESSION = 9` or `Z_NO_COMPRESSION = 0`). -/
structure Encoder (π : Type) where
  depth : Nat
  colorType : Nat
  filename : String
  data : List (List π)
  width : Nat
  height : Nat
  compression : Nat
  deriving DecidableEq

/-- The two ways `_pngEncoder.__init__` raises: `ValueError` for the two
explicit validations, `IndexError` from `data[0]` on an empty grid. -/
inductive InitError where
  | invalidParameter
  | indexError
  deriving DecidableEq

/-- Model of Python `filename[-4:]`: the last four characters (the whole
string when shorter). -/
def lastFour (s : String) : String :=
  s.drop (s.length - 4)

/-- Model of `_pngEncoder.__init__`: validate depth, then the filename
suffix, then assign fields (reading `data[0]`, which raises `IndexError`
on an empty grid). -/
def pngEncoderInit (filename : String) (data : List (List π)) (depth : Nat)
    (colorType : Nat) (compression : Bool) : Except InitError (Encoder π) :=
  if ¬(depth = 8 ∨ depth = 16) then .error .invalidParameter
  else if lastFour filename ≠ ".png" then .error .invalidParameter
  else
    match data with
    | [] => .error .indexError
    | row0 :: _ =>
      .ok { depth := depth, colorType := colorType, filename := filename,
            data := data, width := row0.length, height := data.length,
            compression := if compression then 9 else 0 }

/-- Model of `Grayscale.__init__` (color type `Color.GRAYSCALE.value = 0`). -/
def grayscaleInit (filename : String) (data : List (List Int)) (depth : Nat)
    (compression : Bool) : Except InitError (Encoder Int) :=
  pngEncoderInit filename data depth 0 compression

/-- Model of `RGB.__init__` (color type `Color.RGB.value = 2`). -/
def rgbInit (filename : String) (data : List (List (Int × Int × Int)))
    (depth : Nat) (compression : Bool) : Except InitError (Encoder (Int × Int × Int)) :=
  pngEncoderInit filename data depth 2 compression

/-- The `byte_size` computed at the top of both `_imdata` methods. -/
def byteSize (depth : Nat) : Nat :=
  if depth = 8 then 1 else 2

/-- Model of the IHDR payload built in `_pngEncoder._header`:
width and height via `to_bytes(4, 'big')`, the bit-depth byte
(`b'\x08' if depth == 8 else b'\x10'`), the color-type byte via
`to_bytes(1, 'big')`, then the three fixed zero bytes. -/
def headerPayload? (e : Encoder π) : Option (List Nat) := do
  let w ← intToBytes? 4 (e.width : Int)
  let h ← intToBytes? 4 (e.height : Int)
  let bd := if e.depth = 8 then [0x08] else [0x10]
  let ct ← intToBytes? 1 (e.colorType : Int)
  return w ++ h ++ bd ++ ct ++ [0x00, 0x00, 0x00]

/-- Model of `_pngEncoder._header`: build the payload, then write it as an
`IHDR` chunk. -/
def headerChunk? (e : Encoder π) : Option (List Nat) :=
  headerPayload? e >>= writeChunk ihdrType

/-- `b''.join([x.to_bytes(byte_size, 'big') for x in row])` in
`Grayscale._imdata`: the concatenation of the per-sample byte strings,
failing at the first sample whose conversion overflows. -/
def grayRowTail? (bs : Nat) : List Int → Option (List Nat)
  | [] => some []
  | x :: xs =>
    match intToBytes? bs x, grayRowTail? bs xs with
    | some b, some rest => some (b ++ rest)
    | _, _ => none

/-- One grayscale scanline: `b'\x00' + b''.join(...)` in `Grayscale._imdata`. -/
def grayRow? (bs : Nat) (row : List Int) : Option (List Nat) :=
  (grayRowTail? bs row).map (fun t => 0x00 :: t)

/-- The accumulation loop `for row in self.data: data += ...` of
`Grayscale._imdata`. -/
def grayRows? (bs : Nat) (acc : List Nat) : List (List Int) → Option (List Nat)
  | [] => some acc
  | row :: rest =>
    match grayRow? bs row with
    | none => none
    | some rb => grayRows? bs (acc ++ rb) rest

/-- The raw (pre-compression) scanline byte string built by
`Grayscale._imdata`. -/
def grayRawData? (e : Encoder Int) : Option (List Nat) :=
  grayRows? (byteSize e.depth) [] e.data

/-- One RGB pixel: `r.to_bytes(byte_size, 'big') + g.to_bytes(...) +
b.to_bytes(...)` in `RGB._imdata`. -/
def rgbPixel? (bs : Nat) (p : Int × Int × Int) : Option (List Nat) := do
  let r ← intToBytes? bs p.1
  let g ← intToBytes? bs p.2.1
  let b ← intToBytes? bs p.2.2
  return r ++ g ++ b

/-- The inner loop of `RGB._imdata`: `row_data = b'\x00'` then
`row_data += ...` per pixel. -/
def rgbRow? (bs : Nat) (acc : List Nat) : List (Int × Int × Int) → Option (List Nat)
  | [] => some acc
  | p :: rest =>
    match rgbPixel? bs p with
    | none => none
    | some pb => rgbRow? bs (acc ++ pb) rest

/-- The outer loop of `RGB._imdata`: `data += row_data` per row. -/
def rgbRows? (bs : Nat) (acc : List Nat) : List (List (Int × Int × Int)) → Option (List Nat)
  | [] => some acc
  | row :: rest =>
    match rgbRow? bs [0x00] row with
    | none => none
    | some rb => rgbRows? bs (acc ++ rb) rest

/-- The raw (pre-compression) scanline byte string built by `RGB._imdata`. -/
def rgbRawData? (e : Encoder (Int × Int × Int)) : Option (List Nat) :=
  rgbRows? (byteSize e.depth) [] e.data

/-- Outcome of `make`: the bytes present in the destination file, and
whether the call completed (`ok`) or raised mid-way (`err`), leaving the
bytes written so far as a truncated file. -/
inductive MakeResult where
  | ok (fileBytes : List Nat)
  | err (fileBytes : List Nat)
  deriving DecidableEq

/-- The destination file contents an outcome leaves behind. -/
def MakeResult.bytes : MakeResult → List Nat
  | .ok b => b
  | .err b => b

/-- Whether `make` completed without raising. -/
def MakeResult.isOk : MakeResult → Bool
  | .ok _ => true
  | .err _ => false

/-- Model of `_pngEncoder.make` (with `_imdata` supplied per color mode as
`rawData?` and zlib as `compress`): open the file, write the signature, the
IHDR chunk, the IDAT chunk (`zlib.compress(raw, level)` as payload), and
the IEND chunk.  A `to_bytes` overflow at any step aborts, leaving exactly
the bytes already written. -/
def makeWith (compress : Nat → List Nat → List Nat)
    (rawData? : Encoder π → Option (List Nat)) (e : Encoder π) : MakeResult :=
  match headerChunk? e with
  | none => .err pngSignature
  | some hc =>
    match rawData? e with
    | none => .err (pngSignature ++ hc)
    | some raw =>
      match writeChunk idatType (compress e.compression raw) with
      | none => .err (pngSignature ++ hc)
      | some dc =>
        match writeChunk iendType [] with
        | none => .err (pngSignature ++ hc ++ dc)
        | some ec => .ok (pngSignature ++ hc ++ dc ++ ec)

/-- `Grayscale(...).make()`. -/
def grayscaleMake (compress : Nat → List Nat → List Nat) (e : Encoder Int) : MakeResult :=
  makeWith compress grayRawData? e

/-- `RGB(...).make()`. -/
def rgbMake (compress : Nat → List Nat → List Nat) (e : Encoder (Int × Int × Int)) : MakeResult :=
  makeWith compress rgbRawData? e

/-- A file system mapping names to byte contents, to make the I/O effects of
construction and `make` explicit. -/
def FS : Type := List (String × List Nat)

/-- Look a file up. -/
def fsGet (fs : FS) (name : String) : Option (List Nat) :=
  (fs.find? (fun p => p.1 = name)).map (fun p => p.2)

/-- `open(name, 'wb')` followed by writes: the file holds exactly `b`. -/
def fsSet (fs : FS) (name : String) (b : List Nat) : FS :=
  (name, b) :: fs

/-- `_pngEncoder.__init__` as a file-system transformer: the constructor
performs no file operation, so it returns the file system unchanged next to
the construction result. -/
def pngEncoderInitFS (fs : FS) (filename : String) (data : List (List π))
    (depth : Nat) (colorType : Nat) (compression : Bool) :
    FS × Except InitError (Encoder π) :=
  (fs, pngEncoderInit filename data depth colorType compression)

/-- `make` as a file-system transformer: `open(self.filename, 'wb')`
truncates the destination, and the file ends up holding whatever bytes were
written before `make` returned or raised. -/
def makeWithFS (compress : Nat → List Nat → List Nat)
    (rawData? : Encoder π → Option (List Nat)) (e : Encoder π) (fs : FS) :
    FS × MakeResult :=
  let r := makeWith compress rawData? e
  (fsSet fs e.filename r.bytes, r)

/-! ### Basic lemmas about the byte-level helpers -/

theorem natToBytesBE_length (n v : Nat) : (natToBytesBE n v).length = n := by
  induction n generalizing v with
  | zero => rfl
  | succ n ih => simp [natToBytesBE, ih]

theorem fromBytesBE_natToBytesBE (n v : Nat) (h : v < 256 ^ n) :
    fromBytesBE (natToBytesBE n v) = v := by
  induction n generalizing v with
  | zero =>
    simp only [natToBytesBE, fromBytesBE, List.foldl_nil]
    omega
  | succ n ih =>
    have hdiv : v / 256 < 256 ^ n := by
      rw [Nat.div_lt_iff_lt_mul (by norm_num)]
      calc v < 256 ^ (n + 1) := h
        _ = 256 ^ n * 256 := by ring
    simp only [natToBytesBE, fromBytesBE, List.foldl_append, List.foldl_cons,
      List.foldl_nil]
    have := ih (v / 256) hdiv
    simp only [fromBytesBE] at this
    rw [this]
    omega

theorem crc32Masked_lt (d : List Nat) : crc32Masked d < 2 ^ 32 := by
  have h : crc32Masked d ≤ 0xffffffff := Nat.and_le_right
  omega

theorem intToBytes?_nat (n x : Nat) (h : x < 256 ^ n) :
    intToBytes? n (x : Int) = some (natToBytesBE n x) := by
  show intToBytes? n (Int.ofNat x) = _
  unfold intToBytes?
  simp [h]

theorem writeChunk_eq (t p : List Nat) (h : p.length < 2 ^ 32) :
    writeChunk t p = some (chunkBytes t p) := by
  unfold writeChunk chunkBytes
  rw [intToBytes?_nat 4 p.length (by norm_num at h ⊢; omega),
    intToBytes?_nat 4 (crc32Masked (t ++ p))
      (by have := crc32Masked_lt (t ++ p); norm_num at this ⊢; omega)]
  rfl

/-- Inversion of a successful `__init__`: the validations passed, the grid is
non-empty, and the fields hold exactly what the constructor assigns. -/
theorem pngEncoderInit_ok {π : Type} {f : String} {data : List (List π)}
    {dep ct : Nat} {c : Bool} {e : Encoder π}
    (h : pngEncoderInit f data dep ct c = .ok e) :
    (dep = 8 ∨ dep = 16) ∧ lastFour f = ".png" ∧
      ∃ row0 rest, data = row0 :: rest ∧
        e = ⟨dep, ct, f, data, row0.length, data.length, if c then 9 else 0⟩ := by
  unfold pngEncoderInit at h
  by_cases h1 : dep = 8 ∨ dep = 16
  · rw [if_neg (not_not_intro h1)] at h
    by_cases h2 : lastFour f = ".png"
    · rw [if_neg (not_not_intro h2)] at h
      cases data with
      | nil => exact absurd h (by simp)
      | cons r rest =>
        refine ⟨h1, h2, r, rest, rfl, ?_⟩
        have := Except.ok.inj h
        exact this.symm
    · rw [if_pos h2] at h
      exact absurd h (by simp)
  · rw [if_pos h1] at h
    exact absurd h (by simp)

theorem intToBytes?_some_eq {n : Nat} {v : Int} {l : List Nat}
    (h : intToBytes? n v = some l) :
    0 ≤ v ∧ v < ((256 ^ n : Nat) : Int) ∧ l = natToBytesBE n v.toNat := by
  match v with
  | Int.ofNat m =>
    simp only [intToBytes?] at h
    by_cases hm : m < 256 ^ n
    · rw [if_pos hm] at h
      refine ⟨Int.ofNat_nonneg m, ?_, ?_⟩
      · show ((m : Nat) : Int) < ((256 ^ n : Nat) : Int)
        exact_mod_cast hm
      · exact (Option.some.inj h).symm
    · rw [if_neg hm] at h
      exact absurd h (by simp)
  | Int.negSucc m =>
    exact absurd h (by simp [intToBytes?])

theorem writeChunk_some {t p o : List Nat} (h : writeChunk t p = some o) :
    p.length < 2 ^ 32 ∧ o = chunkBytes t p := by
  unfold writeChunk at h
  cases h1 : intToBytes? 4 ((p.length : Nat) : Int) with
  | none => rw [h1] at h; exact absurd h (by simp)
  | some lb =>
    rw [h1] at h
    cases h2 : intToBytes? 4 ((crc32Masked (t ++ p) : Nat) : Int) with
    | none => rw [h2] at h; exact absurd h (by simp)
    | some cb =>
      rw [h2] at h
      have h' : some (lb ++ t ++ p ++ cb) = some o := h
      have ho : o = lb ++ t ++ p ++ cb := (Option.some.inj h').symm
      obtain ⟨-, hlt, hlb⟩ := intToBytes?_some_eq h1
      obtain ⟨-, -, hcb⟩ := intToBytes?_some_eq h2
      have hplen : p.length < 2 ^ 32 := by
        have : ((p.length : Nat) : Int) < ((256 ^ 4 : Nat) : Int) := hlt
        norm_num at this ⊢
        omega
      refine ⟨hplen, ?_⟩
      rw [ho, hlb, hcb]
      simp [chunkBytes]

theorem drop_chunk_prefix (a t p c : List Nat) (ha : a.length = 4)
    (ht : t.length = 4) :
    List.drop (4 + 4 + p.length) (a ++ t ++ p ++ c) = c := by
  have h1 : a ++ t ++ p ++ c = (a ++ t ++ p) ++ c := by
    simp [List.append_assoc]
  have h2 : (a ++ t ++ p).length = 4 + 4 + p.length := by
    simp [ha, ht]
    omega
  rw [h1, ← h2, List.drop_left]

/-- The IHDR payload in the non-overflow case, in terms of the stored
fields. -/
theorem headerPayload?_eq (e : Encoder π) (hw : e.width < 2 ^ 32)
    (hh : e.height < 2 ^ 32) (hct : e.colorType < 256) :
    headerPayload? e = some (natToBytesBE 4 e.width ++ natToBytesBE 4 e.height
      ++ (if e.depth = 8 then [0x08] else [0x10]) ++ [e.colorType]
      ++ [0x00, 0x00, 0x00]) := by
  have hct1 : natToBytesBE 1 e.colorType = [e.colorType] := by
    simp [natToBytesBE, Nat.mod_eq_of_lt hct]
  unfold headerPayload?
  rw [intToBytes?_nat 4 e.width (by norm_num at hw ⊢; omega),
    intToBytes?_nat 4 e.height (by norm_num at hh ⊢; omega),
    intToBytes?_nat 1 e.colorType (by norm_num; omega)]
  simp [hct1]

/-- The IHDR chunk in the non-overflow case. -/
theorem headerChunk?_eq (e : Encoder π) (hw : e.width < 2 ^ 32)
    (hh : e.height < 2 ^ 32) (hct : e.colorType < 256) :
    headerChunk? e = some (chunkBytes ihdrType
      (natToBytesBE 4 e.width ++ natToBytesBE 4 e.height
        ++ (if e.depth = 8 then [0x08] else [0x10]) ++ [e.colorType]
        ++ [0x00, 0x00, 0x00])) := by
  unfold headerChunk?
  rw [headerPayload?_eq e hw hh hct]
  rw [Option.bind_eq_bind, Option.some_bind]
  refine writeChunk_eq _ _ ?_
  simp [natToBytesBE_length]
  split <;> norm_num

/-- C2: for every 4-byte type code and every payload (empty included), the
chunk writer emits the 4-byte big-endian payload length, the type code, the
payload, and a 4-byte big-endian CRC-32 over type‖payload masked to 32
bits; recomputing the CRC-32 over type‖payload and decoding the trailing 4
bytes of the chunk agree. -/
theorem chunk_writer_layout_and_crc (t p : List Nat) (ht : t.length = 4)
    (hp : p.length < 2 ^ 32) :
    writeChunk t p = some (natToBytesBE 4 p.length ++ t ++ p
      ++ natToBytesBE 4 (crc32Masked (t ++ p))) ∧
    ∀ out, writeChunk t p = some out →
      out.drop (4 + 4 + p.length) = natToBytesBE 4 (crc32Masked (t ++ p)) ∧
      fromBytesBE (out.drop (4 + 4 + p.length)) = crc32Masked (t ++ p) := by
  have hw := writeChunk_eq t p hp
  refine ⟨by rw [hw]; rfl, ?_⟩
  intro out hout
  rw [hw] at hout
  have hout' : out = chunkBytes t p := (Option.some.inj hout).symm
  subst hout'
  have hdrop : List.drop (4 + 4 + p.length) (chunkBytes t p)
      = natToBytesBE 4 (crc32Masked (t ++ p)) := by
    unfold chunkBytes
    exact drop_chunk_prefix _ _ _ _ (natToBytesBE_length 4 _) ht
  refine ⟨hdrop, ?_⟩
  rw [hdrop]
  refine fromBytesBE_natToBytesBE 4 _ ?_
  have := crc32Masked_lt (t ++ p)
  norm_num at this ⊢
  omega

/-- Witness for C2 at the IEND chunk (empty payload). -/
theorem chunk_writer_layout_and_crc_witness :
    writeChunk iendType [] = some (natToBytesBE 4 (List.length ([] : List Nat))
      ++ iendType ++ [] ++ natToBytesBE 4 (crc32Masked (iendType ++ []))) ∧
    ∀ out, writeChunk iendType [] = some out →
      out.drop (4 + 4 + List.length ([] : List Nat))
          = natToBytesBE 4 (crc32Masked (iendType ++ [])) ∧
      fromBytesBE (out.drop (4 + 4 + List.length ([] : List Nat)))
          = crc32Masked (iendType ++ []) :=
  chunk_writer_layout_and_crc iendType [] (by decide) (by norm_num)

/-- C3: for every successfully constructed encoder, the IHDR payload is the
13 bytes width(4,BE) ‖ height(4,BE) ‖ depth byte (0x08 for 8, 0x10 for 16)
‖ color-type byte ‖ three zero bytes, with width the length of the grid's
first row and height the number of rows. -/
theorem ihdr_payload_layout {π : Type} {f : String} {dat : List (List π)}
    {dep ct : Nat} {c : Bool} {e : Encoder π}
    (he : pngEncoderInit f dat dep ct c = .ok e)
    (hw : e.width < 2 ^ 32) (hh : e.height < 2 ^ 32) (hct : ct < 256) :
    headerPayload? e = some (natToBytesBE 4 e.width ++ natToBytesBE 4 e.height
      ++ (if e.depth = 8 then [0x08] else [0x10]) ++ [ct]
      ++ [0x00, 0x00, 0x00]) ∧
    (∀ hp, headerPayload? e = some hp → hp.length = 13) ∧
    (e.depth = 8 ∨ e.depth = 16) ∧
    e.width = (dat.headD []).length ∧ e.height = dat.length := by
  obtain ⟨hdep, -, row0, rest, hdat, hefields⟩ := pngEncoderInit_ok he
  have hcte : e.colorType = ct := by rw [hefields]
  have heq := headerPayload?_eq e hw hh (by rw [hcte]; exact hct)
  rw [hcte] at heq
  refine ⟨heq, ?_, ?_, ?_, ?_⟩
  · intro hp hhp
    rw [heq] at hhp
    have h3 := Option.some.inj hhp
    rw [← h3]
    by_cases hd : e.depth = 8 <;> simp [hd, natToBytesBE_length]
  · rw [hefields]; exact hdep
  · rw [hefields, hdat]; simp
  · rw [hefields]

/-- Witness for C3 on a concrete 2×1 grayscale grid. -/
theorem ihdr_payload_layout_witness :
    headerPayload? (⟨8, 0, "t.png", [[1, 2]], 2, 1, 0⟩ : Encoder Int)
      = some (natToBytesBE 4 2 ++ natToBytesBE 4 1
        ++ (if (8 : Nat) = 8 then [0x08] else [0x10]) ++ [0]
        ++ [0x00, 0x00, 0x00]) ∧
    (∀ hp, headerPayload? (⟨8, 0, "t.png", [[1, 2]], 2, 1, 0⟩ : Encoder Int)
      = some hp → hp.length = 13) ∧
    ((8 : Nat) = 8 ∨ (8 : Nat) = 16) ∧
    (2 : Nat) = (([[1, 2]] : List (List Int)).headD []).length ∧
    (1 : Nat) = ([[1, 2]] : List (List Int)).length :=
  @ihdr_payload_layout Int "t.png" [[1, 2]] 8 0 false
    ⟨8, 0, "t.png", [[1, 2]], 2, 1, 0⟩
    (by decide) (by norm_num) (by norm_num) (by norm_num)

/-- C8: boundary sample encodings are exact: at depth 16 the channel value
65535 encodes as FF FF, and at depth 8 the value 0 encodes as 00, in both
color modes. -/
theorem boundary_sample_encoding :
    grayRawData? (⟨16, 0, "t.png", [[65535]], 1, 1, 0⟩ : Encoder Int)
      = some [0x00, 0xFF, 0xFF] ∧
    grayRawData? (⟨8, 0, "t.png", [[0]], 1, 1, 0⟩ : Encoder Int)
      = some [0x00, 0x00] ∧
    rgbRawData? (⟨16, 2, "t.png", [[(65535, 65535, 65535)]], 1, 1, 0⟩ :
        Encoder (Int × Int × Int))
      = some [0x00, 0xFF, 0xFF, 0xFF, 0xFF, 0xFF, 0xFF] ∧
    rgbRawData? (⟨8, 2, "t.png", [[(0, 0, 0)]], 1, 1, 0⟩ :
        Encoder (Int × Int × Int))
      = some [0x00, 0x00, 0x00, 0x00] ∧
    intToBytes? 2 65535 = some [0xFF, 0xFF] ∧
    intToBytes? 1 0 = some [0x00] := by
  refine ⟨?_, ?_, ?_, ?_, ?_, ?_⟩ <;> decide

/-- C6: for a non-empty grid, construction raises `ValueError` exactly when
the depth is not 8 or 16 or the filename does not end in `.png`; with valid
parameters it succeeds, regardless of the row lengths (no cross-row
validation). -/
theorem init_validation_iff {π : Type} (f : String) (g : List (List π))
    (dep ct : Nat) (c : Bool) (hne : g ≠ []) :
    (pngEncoderInit f g dep ct c = .error .invalidParameter ↔
      (¬(dep = 8 ∨ dep = 16) ∨ lastFour f ≠ ".png")) ∧
    ((∃ e, pngEncoderInit f g dep ct c = .ok e) ↔
      ((dep = 8 ∨ dep = 16) ∧ lastFour f = ".png")) := by
  unfold pngEncoderInit
  by_cases h1 : dep = 8 ∨ dep = 16
  · rw [if_neg (not_not_intro h1)]
    by_cases h2 : lastFour f = ".png"
    · rw [if_neg (not_not_intro h2)]
      cases g with
      | nil => exact absurd rfl hne
      | cons r rest =>
        refine ⟨iff_of_false (fun h => Except.noConfusion h) ?_,
          iff_of_true ⟨_, rfl⟩ ⟨h1, h2⟩⟩
        intro h
        rcases h with h | h
        · exact h h1
        · exact h h2
    · rw [if_pos h2]
      refine ⟨iff_of_true rfl (Or.inr h2), iff_of_false ?_ (fun h => h2 h.2)⟩
      rintro ⟨e, he⟩
      exact Except.noConfusion he
  · rw [if_pos h1]
    refine ⟨iff_of_true rfl (Or.inl h1), iff_of_false ?_ (fun h => h1 h.1)⟩
    rintro ⟨e, he⟩
    exact Except.noConfusion he

/-- Witness for C6 on a ragged grid (rows of unequal length), which is
accepted. -/
theorem init_validation_iff_witness :
    (pngEncoderInit "r.png" [[(1 : Int), 2, 3], [4]] 8 0 false
        = .error .invalidParameter ↔
      (¬((8 : Nat) = 8 ∨ (8 : Nat) = 16) ∨ lastFour "r.png" ≠ ".png")) ∧
    ((∃ e, pngEncoderInit "r.png" [[(1 : Int), 2, 3], [4]] 8 0 false = .ok e) ↔
      (((8 : Nat) = 8 ∨ (8 : Nat) = 16) ∧ lastFour "r.png" = ".png")) :=
  init_validation_iff "r.png" [[(1 : Int), 2, 3], [4]] 8 0 false (by simp)

/-- C7: encoding is deterministic — constructing twice from identical
inputs and configuration and emitting yields identical byte streams, in
both color modes. -/
theorem encode_deterministic (compress : Nat → List Nat → List Nat)
    (f : String) (dep : Nat) (c : Bool) (g : List (List Int))
    (r : List (List (Int × Int × Int)))
    (e₁ e₂ : Encoder Int) (e₃ e₄ : Encoder (Int × Int × Int))
    (h1 : grayscaleInit f g dep c = .ok e₁)
    (h2 : grayscaleInit f g dep c = .ok e₂)
    (h3 : rgbInit f r dep c = .ok e₃)
    (h4 : rgbInit f r dep c = .ok e₄) :
    grayscaleMake compress e₁ = grayscaleMake compress e₂ ∧
    rgbMake compress e₃ = rgbMake compress e₄ := by
  have he : e₁ = e₂ := Except.ok.inj (h1.symm.trans h2)
  have he' : e₃ = e₄ := Except.ok.inj (h3.symm.trans h4)
  rw [he, he']
  exact ⟨rfl, rfl⟩

/-- A compression function for concrete witnesses (zlib is external; any
level-indexed function instantiates the model). -/
def cmpId : Nat → List Nat → List Nat := fun _ d => d

/-- The matching decompressor for `cmpId`. -/
def decompId : List Nat → List Nat := fun d => d

/-- A concrete 1×1 grayscale encoder state (value 128, depth 8, no
compression). -/
def eG1 : Encoder Int := ⟨8, 0, "t.png", [[128]], 1, 1, 0⟩

/-- A concrete 2×1 RGB encoder state. -/
def eR1 : Encoder (Int × Int × Int) := ⟨8, 2, "t.png", [[(255, 0, 0), (0, 255, 0)]], 2, 1, 0⟩

/-- Witness for C7 at concrete grids. -/
theorem encode_deterministic_witness :
    grayscaleMake cmpId eG1 = grayscaleMake cmpId eG1 ∧
    rgbMake cmpId eR1 = rgbMake cmpId eR1 :=
  encode_deterministic cmpId "t.png" 8 false [[128]]
    [[(255, 0, 0), (0, 255, 0)]] eG1 eG1 eR1 eR1
    (by decide) (by decide) (by decide) (by decide)

theorem fsGet_fsSet_same (fs : FS) (name : String) (b : List Nat) :
    fsGet (fsSet fs name b) name = some b := by
  simp [fsGet, fsSet, List.find?]

theorem fsGet_fsSet_other (fs : FS) (name n : String) (b : List Nat)
    (h : n ≠ name) :
    fsGet (fsSet fs name b) n = fsGet fs n := by
  simp only [fsGet, fsSet, List.find?]
  have : (decide (name = n)) = false := by
    simp [Ne.symm h]
  rw [this]

/-- C9: construction touches no file — the file system is unchanged and the
result is pure state; the destination is written only by the `make` step,
which touches no other file. -/
theorem construction_no_output_effects {π : Type} (fs : FS) (f : String)
    (dat : List (List π)) (dep ct : Nat) (c : Bool)
    (compress : Nat → List Nat → List Nat)
    (rawData? : Encoder π → Option (List Nat)) (e : Encoder π)
    (n : String) (hn : n ≠ e.filename) :
    (pngEncoderInitFS fs f dat dep ct c).1 = fs ∧
    (pngEncoderInitFS fs f dat dep ct c).2 = pngEncoderInit f dat dep ct c ∧
    (makeWithFS compress rawData? e fs).1
      = fsSet fs e.filename (makeWith compress rawData? e).bytes ∧
    fsGet (makeWithFS compress rawData? e fs).1 e.filename
      = some (makeWith compress rawData? e).bytes ∧
    fsGet (makeWithFS compress rawData? e fs).1 n = fsGet fs n := by
  refine ⟨rfl, rfl, rfl, ?_, ?_⟩
  · exact fsGet_fsSet_same fs e.filename _
  · exact fsGet_fsSet_other fs e.filename n _ hn

/-- Witness for C9 on an empty file system. -/
theorem construction_no_output_effects_witness :
    (pngEncoderInitFS [] "t.png" [[(128 : Int)]] 8 0 false).1 = [] ∧
    (pngEncoderInitFS [] "t.png" [[(128 : Int)]] 8 0 false).2
      = pngEncoderInit "t.png" [[(128 : Int)]] 8 0 false ∧
    (makeWithFS cmpId grayRawData? eG1 []).1
      = fsSet [] eG1.filename (makeWith cmpId grayRawData? eG1).bytes ∧
    fsGet (makeWithFS cmpId grayRawData? eG1 []).1 eG1.filename
      = some (makeWith cmpId grayRawData? eG1).bytes ∧
    fsGet (makeWithFS cmpId grayRawData? eG1 []).1 "other.png"
      = fsGet [] "other.png" :=
  construction_no_output_effects [] "t.png" [[(128 : Int)]] 8 0 false
    cmpId grayRawData? eG1 "other.png" (by decide)

/-- C1: a successful `make` writes exactly the PNG signature, one IHDR
chunk, one IDAT chunk and one IEND chunk with empty payload, in this order,
and nothing else. -/
theorem make_stream_structure {π : Type} (compress : Nat → List Nat → List Nat)
    (rawData? : Encoder π → Option (List Nat)) (e : Encoder π) (out : List Nat)
    (h : makeWith compress rawData? e = .ok out) :
    ∃ hp raw, headerPayload? e = some hp ∧ rawData? e = some raw ∧
      out = pngSignature ++ chunkBytes ihdrType hp
        ++ chunkBytes idatType (compress e.compression raw)
        ++ chunkBytes iendType [] := by
  unfold makeWith at h
  cases hh : headerChunk? e with
  | none => simp only [hh] at h; exact MakeResult.noConfusion h
  | some hc =>
    simp only [hh] at h
    cases hr : rawData? e with
    | none => simp only [hr] at h; exact MakeResult.noConfusion h
    | some raw =>
      simp only [hr] at h
      cases hd : writeChunk idatType (compress e.compression raw) with
      | none => simp only [hd] at h; exact MakeResult.noConfusion h
      | some dc =>
        simp only [hd] at h
        cases hend : writeChunk iendType [] with
        | none => simp only [hend] at h; exact MakeResult.noConfusion h
        | some ec =>
          simp only [hend] at h
          have hout : out = pngSignature ++ hc ++ dc ++ ec :=
            (MakeResult.ok.inj h).symm
          unfold headerChunk? at hh
          rw [Option.bind_eq_bind] at hh
          obtain ⟨hp, hhp, hwc⟩ := Option.bind_eq_some.mp hh
          obtain ⟨-, hceq⟩ := writeChunk_some hwc
          obtain ⟨-, hdeq⟩ := writeChunk_some hd
          obtain ⟨-, heeq⟩ := writeChunk_some hend
          exact ⟨hp, raw, hhp, rfl, by rw [hout, hceq, hdeq, heeq]⟩

/-- Witness for C1 on a concrete 1×1 grayscale encode. -/
theorem make_stream_structure_witness :
    ∃ hp raw, headerPayload? eG1 = some hp ∧ grayRawData? eG1 = some raw ∧
      (grayscaleMake cmpId eG1).bytes = pngSignature ++ chunkBytes ihdrType hp
        ++ chunkBytes idatType (cmpId eG1.compression raw)
        ++ chunkBytes iendType [] :=
  make_stream_structure cmpId grayRawData? eG1
    ((grayscaleMake cmpId eG1).bytes) (by decide)

theorem intToBytes?_of_range {n : Nat} {v : Int} (h0 : 0 ≤ v)
    (h1 : v < ((256 ^ n : Nat) : Int)) :
    intToBytes? n v = some (natToBytesBE n v.toNat) := by
  match v with
  | Int.ofNat m =>
    simp only [intToBytes?]
    rw [if_pos]
    · rfl
    · have h1' : ((m : Nat) : Int) < ((256 ^ n : Nat) : Int) := h1
      exact_mod_cast h1'
  | Int.negSucc m => exact absurd h0 (by simp)

theorem grayRowTail?_eq (bs : Nat) (row : List Int)
    (h : ∀ v ∈ row, 0 ≤ v ∧ v < ((256 ^ bs : Nat) : Int)) :
    grayRowTail? bs row
      = some (row.flatMap (fun v => natToBytesBE bs v.toNat)) := by
  induction row with
  | nil => simp [grayRowTail?]
  | cons x xs ih =>
    have hx := h x (by simp)
    have hxs := ih (fun v hv => h v (by simp [hv]))
    simp only [grayRowTail?, intToBytes?_of_range hx.1 hx.2, hxs,
      List.flatMap_cons]

theorem grayRow?_eq (bs : Nat) (row : List Int)
    (h : ∀ v ∈ row, 0 ≤ v ∧ v < ((256 ^ bs : Nat) : Int)) :
    grayRow? bs row
      = some (0x00 :: row.flatMap (fun v => natToBytesBE bs v.toNat)) := by
  simp [grayRow?, grayRowTail?_eq bs row h]

theorem grayRows?_eq (bs : Nat) (rows : List (List Int)) (acc : List Nat)
    (h : ∀ row ∈ rows, ∀ v ∈ row, 0 ≤ v ∧ v < ((256 ^ bs : Nat) : Int)) :
    grayRows? bs acc rows = some (acc ++ rows.flatMap (fun row =>
      0x00 :: row.flatMap (fun v => natToBytesBE bs v.toNat))) := by
  induction rows generalizing acc with
  | nil => simp [grayRows?]
  | cons row rest ih =>
    have hrow := h row (by simp)
    have hrest := ih (acc ++ (0x00 :: row.flatMap (fun v => natToBytesBE bs v.toNat)))
      (fun rw2 hrw2 => h rw2 (by simp [hrw2]))
    simp only [grayRows?, grayRow?_eq bs row hrow, hrest, List.flatMap_cons]
    simp [List.append_assoc]

theorem rgbPixel?_of_range {bs : Nat} {p : Int × Int × Int}
    (h1 : 0 ≤ p.1 ∧ p.1 < ((256 ^ bs : Nat) : Int))
    (h2 : 0 ≤ p.2.1 ∧ p.2.1 < ((256 ^ bs : Nat) : Int))
    (h3 : 0 ≤ p.2.2 ∧ p.2.2 < ((256 ^ bs : Nat) : Int)) :
    rgbPixel? bs p = some (natToBytesBE bs p.1.toNat
      ++ natToBytesBE bs p.2.1.toNat ++ natToBytesBE bs p.2.2.toNat) := by
  simp only [rgbPixel?, intToBytes?_of_range h1.1 h1.2,
    intToBytes?_of_range h2.1 h2.2, intToBytes?_of_range h3.1 h3.2,
    Option.bind_eq_bind, Option.some_bind, Option.pure_def]

theorem rgbRow?_eq (bs : Nat) (row : List (Int × Int × Int)) (acc : List Nat)
    (h : ∀ p ∈ row, (0 ≤ p.1 ∧ p.1 < ((256 ^ bs : Nat) : Int)) ∧
      (0 ≤ p.2.1 ∧ p.2.1 < ((256 ^ bs : Nat) : Int)) ∧
      (0 ≤ p.2.2 ∧ p.2.2 < ((256 ^ bs : Nat) : Int))) :
    rgbRow? bs acc row = some (acc ++ row.flatMap (fun p =>
      natToBytesBE bs p.1.toNat ++ natToBytesBE bs p.2.1.toNat
        ++ natToBytesBE bs p.2.2.toNat)) := by
  induction row generalizing acc with
  | nil => simp [rgbRow?]
  | cons p rest ih =>
    have hp := h p (by simp)
    have hrest := ih (acc ++ (natToBytesBE bs p.1.toNat
      ++ natToBytesBE bs p.2.1.toNat ++ natToBytesBE bs p.2.2.toNat))
      (fun q hq => h q (by simp [hq]))
    simp only [rgbRow?, rgbPixel?_of_range hp.1 hp.2.1 hp.2.2]
    rw [hrest]
    simp [List.flatMap_cons, List.append_assoc]

theorem rgbRows?_eq (bs : Nat) (rows : List (List (Int × Int × Int)))
    (acc : List Nat)
    (h : ∀ row ∈ rows, ∀ p ∈ row, (0 ≤ p.1 ∧ p.1 < ((256 ^ bs : Nat) : Int)) ∧
      (0 ≤ p.2.1 ∧ p.2.1 < ((256 ^ bs : Nat) : Int)) ∧
      (0 ≤ p.2.2 ∧ p.2.2 < ((256 ^ bs : Nat) : Int))) :
    rgbRows? bs acc rows = some (acc ++ rows.flatMap (fun row =>
      0x00 :: row.flatMap (fun p => natToBytesBE bs p.1.toNat
        ++ natToBytesBE bs p.2.1.toNat ++ natToBytesBE bs p.2.2.toNat))) := by
  induction rows generalizing acc with
  | nil => simp [rgbRows?]
  | cons row rest ih =>
    have hrow := rgbRow?_eq bs row [0x00] (h row (by simp))
    rw [List.singleton_append] at hrow
    have hrest := ih (acc ++ (0x00 :: row.flatMap (fun p =>
        natToBytesBE bs p.1.toNat ++ natToBytesBE bs p.2.1.toNat
          ++ natToBytesBE bs p.2.2.toNat)))
      (fun rw2 hrw2 => h rw2 (by simp [hrw2]))
    simp only [rgbRows?, hrow]
    rw [hrest]
    simp [List.flatMap_cons, List.append_assoc]

theorem pow256_byteSize (dep : Nat) (hdep : dep = 8 ∨ dep = 16) :
    ((256 ^ byteSize dep : Nat) : Int) = ((2 ^ dep : Nat) : Int) := by
  rcases hdep with h | h <;> subst h <;> norm_num [byteSize]

/-- C4: with in-range channel values, the raw pre-compression image data is
the row-order concatenation of a 0x00 filter byte followed by the row's
samples — one byte per sample at depth 8, two big-endian bytes at depth 16
— with the three channels of an RGB pixel written consecutively. -/
theorem scanline_layout
    (f : String) (dep : Nat) (c : Bool)
    (g : List (List Int)) (r : List (List (Int × Int × Int)))
    (eg : Encoder Int) (er : Encoder (Int × Int × Int))
    (heg : grayscaleInit f g dep c = .ok eg)
    (her : rgbInit f r dep c = .ok er)
    (hg : ∀ row ∈ g, ∀ v ∈ row, 0 ≤ v ∧ v < ((2 ^ dep : Nat) : Int))
    (hr : ∀ row ∈ r, ∀ p ∈ row, (0 ≤ p.1 ∧ p.1 < ((2 ^ dep : Nat) : Int)) ∧
      (0 ≤ p.2.1 ∧ p.2.1 < ((2 ^ dep : Nat) : Int)) ∧
      (0 ≤ p.2.2 ∧ p.2.2 < ((2 ^ dep : Nat) : Int))) :
    grayRawData? eg = some (g.flatMap (fun row =>
      0x00 :: row.flatMap (fun v => natToBytesBE (byteSize dep) v.toNat))) ∧
    rgbRawData? er = some (r.flatMap (fun row =>
      0x00 :: row.flatMap (fun p => natToBytesBE (byteSize dep) p.1.toNat
        ++ natToBytesBE (byteSize dep) p.2.1.toNat
        ++ natToBytesBE (byteSize dep) p.2.2.toNat))) := by
  obtain ⟨hdep, -, grow0, grest, hgdat, hegf⟩ := pngEncoderInit_ok heg
  obtain ⟨-, -, rrow0, rrest, hrdat, herf⟩ := pngEncoderInit_ok her
  have hpow := pow256_byteSize dep hdep
  constructor
  · have hdg : eg.data = g := by rw [hegf]
    have hdd : eg.depth = dep := by rw [hegf]
    unfold grayRawData?
    rw [hdg, hdd, grayRows?_eq (byteSize dep) g []
      (fun row hrow v hv => by rw [hpow]; exact hg row hrow v hv)]
    simp
  · have hdg : er.data = r := by rw [herf]
    have hdd : er.depth = dep := by rw [herf]
    unfold rgbRawData?
    rw [hdg, hdd, rgbRows?_eq (byteSize dep) r []
      (fun row hrow p hp => by rw [hpow]; exact hr row hrow p hp)]
    simp

/-- Witness for C4 on concrete grayscale and RGB grids. -/
theorem scanline_layout_witness :
    grayRawData? eG1 = some (([[128]] : List (List Int)).flatMap (fun row =>
      0x00 :: row.flatMap (fun v => natToBytesBE (byteSize 8) v.toNat))) ∧
    rgbRawData? eR1 = some (([[(255, 0, 0), (0, 255, 0)]] :
        List (List (Int × Int × Int))).flatMap (fun row =>
      0x00 :: row.flatMap (fun p => natToBytesBE (byteSize 8) p.1.toNat
        ++ natToBytesBE (byteSize 8) p.2.1.toNat
        ++ natToBytesBE (byteSize 8) p.2.2.toNat))) :=
  scanline_layout "t.png" 8 false [[128]] [[(255, 0, 0), (0, 255, 0)]]
    eG1 eR1 (by decide) (by decide) (by decide) (by decide)

theorem intToBytes?_none {n : Nat} {v : Int}
    (h : v < 0 ∨ ((256 ^ n : Nat) : Int) ≤ v) :
    intToBytes? n v = none := by
  match v with
  | Int.ofNat m =>
    simp only [intToBytes?]
    rw [if_neg]
    intro hm
    rcases h with h | h
    · exact absurd h (by simp)
    · have h' : ((256 ^ n : Nat) : Int) ≤ ((m : Nat) : Int) := h
      have : (256 ^ n : Nat) ≤ m := by exact_mod_cast h'
      omega
  | Int.negSucc m => rfl

theorem grayRowTail?_none (bs : Nat) (row : List Int)
    (h : ∃ v ∈ row, intToBytes? bs v = none) :
    grayRowTail? bs row = none := by
  induction row with
  | nil => simp at h
  | cons x xs ih =>
    rcases h with ⟨v, hv, hnone⟩
    rcases List.mem_cons.mp hv with h1 | h1
    · subst h1
      cases h2 : grayRowTail? bs xs <;> simp [grayRowTail?, hnone, h2]
    · have h3 := ih ⟨v, h1, hnone⟩
      cases h2 : intToBytes? bs x <;> simp [grayRowTail?, h3, h2]

theorem grayRows?_none (bs : Nat) (rows : List (List Int))
    (h : ∃ row ∈ rows, ∃ v ∈ row, intToBytes? bs v = none) :
    ∀ acc, grayRows? bs acc rows = none := by
  induction rows with
  | nil => simp at h
  | cons row rest ih =>
    intro acc
    rcases h with ⟨rw2, hrw2, hbad⟩
    rcases List.mem_cons.mp hrw2 with h1 | h1
    · subst h1
      have hrow : grayRow? bs rw2 = none := by
        simp [grayRow?, grayRowTail?_none bs rw2 hbad]
      simp [grayRows?, hrow]
    · have h3 := ih ⟨rw2, h1, hbad⟩
      cases h2 : grayRow? bs row with
      | none => simp [grayRows?, h2]
      | some rb => simp [grayRows?, h2, h3]

theorem rgbPixel?_none {bs : Nat} {p : Int × Int × Int}
    (h : intToBytes? bs p.1 = none ∨ intToBytes? bs p.2.1 = none ∨
      intToBytes? bs p.2.2 = none) :
    rgbPixel? bs p = none := by
  rcases h with h | h | h
  · simp [rgbPixel?, h]
  · cases h1 : intToBytes? bs p.1 <;> simp [rgbPixel?, h1, h]
  · cases h1 : intToBytes? bs p.1 <;>
      cases h2 : intToBytes? bs p.2.1 <;> simp [rgbPixel?, h1, h2, h]

theorem rgbRow?_none (bs : Nat) (row : List (Int × Int × Int))
    (h : ∃ p ∈ row, rgbPixel? bs p = none) :
    ∀ acc, rgbRow? bs acc row = none := by
  induction row with
  | nil => simp at h
  | cons q rest ih =>
    intro acc
    rcases h with ⟨p, hp, hnone⟩
    rcases List.mem_cons.mp hp with h1 | h1
    · subst h1
      simp [rgbRow?, hnone]
    · have h3 := ih ⟨p, h1, hnone⟩
      cases h2 : rgbPixel? bs q with
      | none => simp [rgbRow?, h2]
      | some pb => simp [rgbRow?, h2, h3]

theorem rgbRows?_none (bs : Nat) (rows : List (List (Int × Int × Int)))
    (h : ∃ row ∈ rows, ∃ p ∈ row, rgbPixel? bs p = none) :
    ∀ acc, rgbRows? bs acc rows = none := by
  induction rows with
  | nil => simp at h
  | cons row rest ih =>
    intro acc
    rcases h with ⟨rw2, hrw2, hbad⟩
    rcases List.mem_cons.mp hrw2 with h1 | h1
    · subst h1
      simp [rgbRows?, rgbRow?_none bs rw2 hbad [0x00]]
    · have h3 := ih ⟨rw2, h1, hbad⟩
      cases h2 : rgbRow? bs [0x00] row with
      | none => simp [rgbRows?, h2]
      | some rb => simp [rgbRows?, h2, h3]

/-- C10: with any channel value outside [0, 2^depth − 1], `make` fails from
the `to_bytes` overflow during scanline encoding, after the signature and
the IHDR chunk have been written: a truncated file holding exactly
signature ‖ IHDR remains, with no IDAT and no IEND chunk. -/
theorem make_nonatomic_on_out_of_range (compress : Nat → List Nat → List Nat)
    (f : String) (dep : Nat) (c : Bool)
    (g : List (List Int)) (r : List (List (Int × Int × Int)))
    (eg : Encoder Int) (er : Encoder (Int × Int × Int))
    (heg : grayscaleInit f g dep c = .ok eg)
    (her : rgbInit f r dep c = .ok er)
    (hwg : eg.width < 2 ^ 32) (hhg : eg.height < 2 ^ 32)
    (hwr : er.width < 2 ^ 32) (hhr : er.height < 2 ^ 32)
    (hbadg : ∃ row ∈ g, ∃ v ∈ row, v < 0 ∨ ((2 ^ dep : Nat) : Int) ≤ v)
    (hbadr : ∃ row ∈ r, ∃ p ∈ row,
      (p.1 < 0 ∨ ((2 ^ dep : Nat) : Int) ≤ p.1) ∨
      (p.2.1 < 0 ∨ ((2 ^ dep : Nat) : Int) ≤ p.2.1) ∨
      (p.2.2 < 0 ∨ ((2 ^ dep : Nat) : Int) ≤ p.2.2)) :
    (∃ hcg, headerChunk? eg = some hcg ∧
      grayscaleMake compress eg = .err (pngSignature ++ hcg)) ∧
    (∃ hcr, headerChunk? er = some hcr ∧
      rgbMake compress er = .err (pngSignature ++ hcr)) := by
  obtain ⟨hdep, -, grow0, grest, hgdat, hegf⟩ := pngEncoderInit_ok heg
  obtain ⟨-, -, rrow0, rrest, hrdat, herf⟩ := pngEncoderInit_ok her
  have hpow := pow256_byteSize dep hdep
  constructor
  · have hhc := headerChunk?_eq eg hwg hhg (by rw [hegf]; norm_num)
    have hraw : grayRawData? eg = none := by
      unfold grayRawData?
      have hdg : eg.data = g := by rw [hegf]
      have hdd : eg.depth = dep := by rw [hegf]
      rw [hdg, hdd]
      obtain ⟨rw2, hrw2, v, hv, hbad⟩ := hbadg
      exact grayRows?_none (byteSize dep) g
        ⟨rw2, hrw2, v, hv, intToBytes?_none (by rw [hpow]; exact hbad)⟩ []
    refine ⟨_, hhc, ?_⟩
    unfold grayscaleMake makeWith
    simp only [hhc, hraw]
  · have hhc := headerChunk?_eq er hwr hhr (by rw [herf]; norm_num)
    have hraw : rgbRawData? er = none := by
      unfold rgbRawData?
      have hdg : er.data = r := by rw [herf]
      have hdd : er.depth = dep := by rw [herf]
      rw [hdg, hdd]
      obtain ⟨rw2, hrw2, p, hp, hbad⟩ := hbadr
      refine rgbRows?_none (byteSize dep) r ⟨rw2, hrw2, p, hp, ?_⟩ []
      refine rgbPixel?_none ?_
      rcases hbad with h | h | h
      · exact Or.inl (intToBytes?_none (by rw [hpow]; exact h))
      · exact Or.inr (Or.inl (intToBytes?_none (by rw [hpow]; exact h)))
      · exact Or.inr (Or.inr (intToBytes?_none (by rw [hpow]; exact h)))
    refine ⟨_, hhc, ?_⟩
    unfold rgbMake makeWith
    simp only [hhc, hraw]

/-- Witness for C10: a grayscale grid holding 300 at depth 8, and an RGB
grid holding a negative blue channel. -/
theorem make_nonatomic_on_out_of_range_witness :
    (∃ hcg, headerChunk? (⟨8, 0, "t.png", [[300]], 1, 1, 0⟩ : Encoder Int)
        = some hcg ∧
      grayscaleMake cmpId ⟨8, 0, "t.png", [[300]], 1, 1, 0⟩
        = .err (pngSignature ++ hcg)) ∧
    (∃ hcr, headerChunk? (⟨8, 2, "t.png", [[(0, 0, -1)]], 1, 1, 0⟩ :
          Encoder (Int × Int × Int)) = some hcr ∧
      rgbMake cmpId ⟨8, 2, "t.png", [[(0, 0, -1)]], 1, 1, 0⟩
        = .err (pngSignature ++ hcr)) :=
  make_nonatomic_on_out_of_range cmpId "t.png" 8 false [[300]] [[(0, 0, -1)]]
    ⟨8, 0, "t.png", [[300]], 1, 1, 0⟩ ⟨8, 2, "t.png", [[(0, 0, -1)]], 1, 1, 0⟩
    (by decide) (by decide) (by decide) (by decide) (by decide) (by decide)
    (by decide) (by decide)

/-- C5: the raw pre-compression scanline bytes do not depend on the
compression flag, and — for any decompressor inverting the compressor at
every level, which is zlib's contract — decompressing the IDAT payload
(`compress level raw`) recovers exactly those bytes at both levels, in both
color modes. -/
theorem compression_toggle (compress : Nat → List Nat → List Nat)
    (decompress : List Nat → List Nat)
    (hinv : ∀ lvl d, decompress (compress lvl d) = d)
    (f : String) (dep : Nat) (g : List (List Int))
    (r : List (List (Int × Int × Int)))
    (eg0 eg9 : Encoder Int) (er0 er9 : Encoder (Int × Int × Int))
    (rawG rawR : List Nat)
    (hg0 : grayscaleInit f g dep false = .ok eg0)
    (hg9 : grayscaleInit f g dep true = .ok eg9)
    (hr0 : rgbInit f r dep false = .ok er0)
    (hr9 : rgbInit f r dep true = .ok er9)
    (hrawG : grayRawData? eg0 = some rawG)
    (hrawR : rgbRawData? er0 = some rawR) :
    grayRawData? eg9 = some rawG ∧
    rgbRawData? er9 = some rawR ∧
    decompress (compress eg0.compression rawG) = rawG ∧
    decompress (compress eg9.compression rawG) = rawG ∧
    decompress (compress er0.compression rawR) = rawR ∧
    decompress (compress er9.compression rawR) = rawR := by
  obtain ⟨-, -, g0row, g0rest, -, hg0f⟩ := pngEncoderInit_ok hg0
  obtain ⟨-, -, g9row, g9rest, -, hg9f⟩ := pngEncoderInit_ok hg9
  obtain ⟨-, -, r0row, r0rest, -, hr0f⟩ := pngEncoderInit_ok hr0
  obtain ⟨-, -, r9row, r9rest, -, hr9f⟩ := pngEncoderInit_ok hr9
  have hgsame : grayRawData? eg9 = grayRawData? eg0 := by
    rw [hg0f, hg9f]
    simp [grayRawData?]
  have hrsame : rgbRawData? er9 = rgbRawData? er0 := by
    rw [hr0f, hr9f]
    simp [rgbRawData?]
  exact ⟨by rw [hgsame, hrawG], by rw [hrsame, hrawR],
    hinv _ rawG, hinv _ rawG, hinv _ rawR, hinv _ rawR⟩

/-- The second concrete encoder pair for the C5 witness: best compression. -/
def eG9 : Encoder Int := ⟨8, 0, "t.png", [[128]], 1, 1, 9⟩

/-- RGB encoder with the best-compression level, for the C5 witness. -/
def eR9 : Encoder (Int × Int × Int) := ⟨8, 2, "t.png", [[(255, 0, 0), (0, 255, 0)]], 2, 1, 9⟩

/-- Witness for C5 with the identity compressor pair at concrete grids. -/
theorem compression_toggle_witness :
    grayRawData? eG9 = some [0x00, 0x80] ∧
    rgbRawData? eR9 = some [0x00, 0xFF, 0x00, 0x00, 0x00, 0xFF, 0x00] ∧
    decompId (cmpId eG1.compression [0x00, 0x80]) = [0x00, 0x80] ∧
    decompId (cmpId eG9.compression [0x00, 0x80]) = [0x00, 0x80] ∧
    decompId (cmpId eR1.compression [0x00, 0xFF, 0x00, 0x00, 0x00, 0xFF, 0x00])
      = [0x00, 0xFF, 0x00, 0x00, 0x00, 0xFF, 0x00] ∧
    decompId (cmpId eR9.compression [0x00, 0xFF, 0x00, 0x00, 0x00, 0xFF, 0x00])
      = [0x00, 0xFF, 0x00, 0x00, 0x00, 0xFF, 0x00] :=
  compression_toggle cmpId decompId (fun _ _ => rfl) "t.png" 8
    [[128]] [[(255, 0, 0), (0, 255, 0)]] eG1 eG9 eR1 eR9
    [0x00, 0x80] [0x00, 0xFF, 0x00, 0x00, 0x00, 0xFF, 0x00]
    (by decide) (by decide) (by decide) (by decide) (by decide) (by decide)

end Ricklib
